import Mathlib

/-!
Verification of the `NewsFetcher` class from `src/lib/functions/manager/fetch.manager.ts`.

The TypeScript class is shallowly embedded as follows:
* the mutable fields (`baseUrl`, `month`, `year`, `date`) become a structure `NewsFetcher`;
  JS numbers holding calendar values are modelled as `Int`;
* methods that mutate fields become `StateM NewsFetcher` computations, `setDate`'s `throw`
  becomes `ExceptT String`;
* the network is modelled by an environment `Env : String → FetchOutcome` mapping the request
  URL to what `fetch` + `response.json()` produce: a parsed item array on success, or one of
  the failure modes (non-2xx status, network error, JSON decode error) that the `try/catch`
  in `fetchNewsData` converts to an empty array;
* `published` is an ISO timestamp string in TS, consumed only through
  `new Date(published).getTime()`; it is modelled by the resulting absolute instant (`Int`);
* JS `Map`/`Set` iteration order is insertion order, modelled by insertion-ordered
  association lists (`bump`, `firstDedup`);
* `Array.prototype.sort` is stable (ECMAScript 2019); it is modelled by the stable
  `List.insertionSort`.
-/

/-- Author record `{ name: string }`. -/
structure Author where
  name : String
deriving DecidableEq, Repr

/-- Image record `{ url: string }`. -/
structure ImageRef where
  url : String
deriving DecidableEq, Repr

/-- The `item` payload of a `NewsItem`.  `published` is modelled by the absolute instant
(milliseconds) that `new Date(published).getTime()` yields for the ISO timestamp string. -/
structure NewsItemPayload where
  title : String
  description : String
  links : List String
  categories : List String
  source : String
  authors : List Author
  image : ImageRef
  published : Int
deriving DecidableEq, Repr

/-- One news record: `hash` plus the payload. -/
structure NewsItem where
  hash : String
  item : NewsItemPayload
deriving DecidableEq, Repr

/-- The mutable state of a `NewsFetcher` instance, fields in declaration order. -/
structure NewsFetcher where
  baseUrl : String
  month : Int
  year : Int
  date : Int
deriving DecidableEq, Repr

/-- The `monthNames` array of the class. -/
def monthNames : List String :=
  ["January", "February", "March", "April", "May", "June",
   "July", "August", "September", "October", "November", "December"]

/-- JS array indexing `l[i]`: out-of-bounds (or negative) access yields `undefined`,
which a template literal renders as the string `"undefined"`. -/
def jsStringIndex (l : List String) (i : Int) : String :=
  if h : 0 ≤ i ∧ i.toNat < l.length then l.get ⟨i.toNat, h.2⟩ else "undefined"

/-- `String.prototype.padStart(2, '0')`. -/
def padStart2 (s : String) : String :=
  if 2 ≤ s.length then s else String.mk (List.replicate (2 - s.length) '0') ++ s

/-- `createUrl`: builds `baseUrl/monthString-year/paddedDate-paddedMonth-year.json`. -/
def createUrl (s : NewsFetcher) : String :=
  let monthString := jsStringIndex monthNames (s.month - 1)
  let paddedDate := padStart2 (toString s.date)
  let paddedMonth := padStart2 (toString s.month)
  s.baseUrl ++ "/" ++ monthString ++ "-" ++ toString s.year ++ "/" ++
    paddedDate ++ "-" ++ paddedMonth ++ "-" ++ toString s.year ++ ".json"

/-- `setDate(date, month, year)`: three range checks (each `throw` aborts before any
field assignment), then the three sequential field assignments. -/
def setDate (date month year : Int) : ExceptT String (StateM NewsFetcher) Unit := do
  if date < 1 ∨ 31 < date then throw "Invalid date"
  if month < 1 ∨ 12 < month then throw "Invalid month"
  if year < 2000 ∨ 2100 < year then throw "Invalid year"
  modify fun s => { s with date := date }
  modify fun s => { s with month := month }
  modify fun s => { s with year := year }

/-- Run `setDate` on a starting state, returning the call's outcome and the state after
the call (on a throw, the state at the moment the exception left the method). -/
def runSetDate (s : NewsFetcher) (date month year : Int) :
    Except String Unit × NewsFetcher :=
  ((setDate date month year).run).run s

/-- What the environment delivers for one URL: a successfully parsed JSON array of items,
or one of the failure modes of `fetch`/`response.json()`. -/
inductive FetchOutcome where
  | ok (items : List NewsItem)
  | httpError (status : Nat)
  | networkError
  | decodeError
deriving DecidableEq, Repr

/-- Failure modes: everything except a successful parse. -/
def FetchOutcome.isFailure : FetchOutcome → Bool
  | .ok _ => false
  | .httpError _ => true
  | .networkError => true
  | .decodeError => true

/-- The network environment: what fetching each URL yields. -/
def Env : Type := String → FetchOutcome

/-- `fetchNewsData()`: derives the URL from the current state and fetches it; the
`try/catch` turns every failure mode into an empty array (logged, not rethrown). -/
def fetchNewsData (env : Env) : StateM NewsFetcher (List NewsItem) := do
  let s ← get
  match env (createUrl s) with
  | .ok items => pure items
  | .httpError _ => pure []
  | .networkError => pure []
  | .decodeError => pure []

/-- The list of items a query sees: the parsed array on success, `[]` on any failure. -/
def fetchList (env : Env) (s : NewsFetcher) : List NewsItem :=
  match env (createUrl s) with
  | .ok items => items
  | .httpError _ => []
  | .networkError => []
  | .decodeError => []

/-- `String.prototype.toLowerCase()`, modelled characterwise (ASCII case folding). -/
def jsToLower (s : String) : String :=
  String.mk (s.data.map Char.toLower)

/-- `Array.from(new Set(l))`: JS `Set` keeps first occurrences in insertion order. -/
def firstDedup (l : List String) : List String :=
  l.foldl (fun acc c => if c ∈ acc then acc else acc ++ [c]) []

/-- One `map.set(k, (map.get(k) || 0) + 1)` on an insertion-ordered association list:
an existing key is incremented in place, a new key is appended at the end. -/
def bump : List (String × Nat) → String → List (String × Nat)
  | [], k => [(k, 1)]
  | (a, n) :: rest, k =>
      if a = k then (a, n + 1) :: rest else (a, n) :: bump rest k

/-- The `categoryFrequency` map of `ReturnAllTopics`, in insertion order. -/
def categoryFrequency (data : List NewsItem) : List (String × Nat) :=
  data.foldl (fun acc it => it.item.categories.foldl bump acc) []

/-- The `sourceCount` map of `ReturnTopSourcesByArticleCount`, in insertion order. -/
def sourceCount (data : List NewsItem) : List (String × Nat) :=
  data.foldl (fun acc it => bump acc it.item.source) []

/-- The comparator `(a, b) => b[1] - a[1]`: sort pairs by count, descending. -/
def byCountDesc (p q : String × Nat) : Prop := q.2 ≤ p.2

instance : DecidableRel byCountDesc :=
  fun p q => inferInstanceAs (Decidable (q.2 ≤ p.2))

instance : IsTotal (String × Nat) byCountDesc :=
  ⟨fun p q => by unfold byCountDesc; exact le_total q.2 p.2⟩

instance : IsTrans (String × Nat) byCountDesc :=
  ⟨fun _ _ _ h1 h2 => by unfold byCountDesc at *; exact le_trans h2 h1⟩

/-- The comparator of `ReturnLatestNews`: published instant, descending. -/
def byPublishedDesc (a b : NewsItem) : Prop :=
  b.item.published ≤ a.item.published

instance : DecidableRel byPublishedDesc :=
  fun a b => inferInstanceAs (Decidable (b.item.published ≤ a.item.published))

instance : IsTotal NewsItem byPublishedDesc :=
  ⟨fun a b => by unfold byPublishedDesc; exact le_total b.item.published a.item.published⟩

instance : IsTrans NewsItem byPublishedDesc :=
  ⟨fun _ _ _ h1 h2 => by unfold byPublishedDesc at *; exact le_trans h2 h1⟩

/-- `ReturnAllSources()`: distinct `source` values via a `Set`. -/
def ReturnAllSources (env : Env) : StateM NewsFetcher (List String) :=
  fetchNewsData env >>= fun data =>
    pure (firstDedup (data.map fun it => it.item.source))

/-- `ReturnAllTopics()`: category frequency map, sorted by count descending (stable),
then the category names. -/
def ReturnAllTopics (env : Env) : StateM NewsFetcher (List String) :=
  fetchNewsData env >>= fun data =>
    pure (((categoryFrequency data).insertionSort byCountDesc).map Prod.fst)

/-- `ReturnNewsWithATopic(category)`: items with some category equal to `category`
after lowercasing both sides. -/
def ReturnNewsWithATopic (env : Env) (category : String) :
    StateM NewsFetcher (List NewsItem) :=
  fetchNewsData env >>= fun data =>
    pure (data.filter fun it =>
      it.item.categories.any fun cat => jsToLower cat == jsToLower category)

/-- `ReturnNewsFromSource(source)`: items whose `source` equals the argument after
lowercasing both sides. -/
def ReturnNewsFromSource (env : Env) (source : String) :
    StateM NewsFetcher (List NewsItem) :=
  fetchNewsData env >>= fun data =>
    pure (data.filter fun it => jsToLower it.item.source == jsToLower source)

/-- `SearchNewsByKeyword(keyword)`: items whose title or description contains the
lowercased keyword as a substring. -/
def SearchNewsByKeyword (env : Env) (keyword : String) :
    StateM NewsFetcher (List NewsItem) :=
  fetchNewsData env >>= fun data =>
    pure (data.filter fun it =>
      (jsToLower it.item.title).containsSubstr (jsToLower keyword) ||
      (jsToLower it.item.description).containsSubstr (jsToLower keyword))

/-- `ReturnNewsByAuthor(authorName)`: items where some author's name contains the
lowercased argument as a substring. -/
def ReturnNewsByAuthor (env : Env) (authorName : String) :
    StateM NewsFetcher (List NewsItem) :=
  fetchNewsData env >>= fun data =>
    pure (data.filter fun it =>
      it.item.authors.any fun a => (jsToLower a.name).containsSubstr (jsToLower authorName))

/-- `ReturnLatestNews(limit)`: sort by published instant descending (stable sort with
the comparator `b - a`), then `slice(0, limit)`. -/
def ReturnLatestNews (env : Env) (limit : Nat) :
    StateM NewsFetcher (List NewsItem) :=
  fetchNewsData env >>= fun data =>
    pure ((data.insertionSort byPublishedDesc).take limit)

/-- `ReturnNewsInDateRange(startDate, endDate)`: items with
`startDate ≤ published ≤ endDate` (instants compared inclusively). -/
def ReturnNewsInDateRange (env : Env) (startDate endDate : Int) :
    StateM NewsFetcher (List NewsItem) :=
  fetchNewsData env >>= fun data =>
    pure (data.filter fun it =>
      startDate ≤ it.item.published ∧ it.item.published ≤ endDate)

/-- `ReturnNewsWithMultipleCategories(categories)`: items whose categories contain every
given category (lowercased exact match per category). -/
def ReturnNewsWithMultipleCategories (env : Env) (categories : List String) :
    StateM NewsFetcher (List NewsItem) :=
  fetchNewsData env >>= fun data =>
    pure (data.filter fun it =>
      (categories.map jsToLower).all fun searchCat =>
        it.item.categories.any fun cat => jsToLower cat == searchCat)

/-- `ReturnTopSourcesByArticleCount(limit)`: per-source counts, sorted by count
descending (stable), `slice(0, limit)`, emitted as `(source, count)` pairs. -/
def ReturnTopSourcesByArticleCount (env : Env) (limit : Nat) :
    StateM NewsFetcher (List (String × Nat)) :=
  fetchNewsData env >>= fun data =>
    pure (((sourceCount data).insertionSort byCountDesc).take limit)

/-! ### Spec-side definitions (from the specification's words, for refinement claims) -/

/-- The English full month name for a 1-based month, as the spec describes it. -/
def specMonthName : Int → String
  | 1 => "January"
  | 2 => "February"
  | 3 => "March"
  | 4 => "April"
  | 5 => "May"
  | 6 => "June"
  | 7 => "July"
  | 8 => "August"
  | 9 => "September"
  | 10 => "October"
  | 11 => "November"
  | 12 => "December"
  | _ => ""

/-- The zero-padded two-digit decimal rendering of a value in 0..99, per the spec. -/
def specTwoDigit (n : Int) : String :=
  if n < 10 then "0" ++ toString n else toString n

/-- The URL format the spec prescribes:
`{baseUrl}/{MonthName}-{year}/{DD}-{MM}-{year}.json`. -/
def spec_createUrl (baseUrl : String) (date month year : Int) : String :=
  baseUrl ++ "/" ++ specMonthName month ++ "-" ++ toString year ++ "/" ++
    specTwoDigit date ++ "-" ++ specTwoDigit month ++ "-" ++ toString year ++ ".json"

/-! ### Helper lemmas -/

lemma jsStringIndex_monthNames (m : Int) (h1 : 1 ≤ m) (h2 : m ≤ 12) :
    jsStringIndex monthNames (m - 1) = specMonthName m := by
  interval_cases m <;> rfl

lemma padStart2_toString (d : Int) (h1 : 1 ≤ d) (h2 : d ≤ 31) :
    padStart2 (toString d) = specTwoDigit d := by
  interval_cases d <;> decide

/-- Closed form of `runSetDate`: the three checks in order, each failure leaving the
state untouched, success replacing the three date fields. -/
lemma runSetDate_eq (s : NewsFetcher) (d m y : Int) :
    runSetDate s d m y =
      if d < 1 ∨ 31 < d then (Except.error "Invalid date", s)
      else if m < 1 ∨ 12 < m then (Except.error "Invalid month", s)
      else if y < 2000 ∨ 2100 < y then (Except.error "Invalid year", s)
      else (Except.ok (), { s with date := d, month := m, year := y }) := by
  unfold runSetDate setDate
  split_ifs with h1 h2 h3 <;>
    simp_all [ExceptT.run, StateT.run, modify, modifyGet, MonadStateOf.modifyGet,
      StateT.modifyGet, bind, ExceptT.bind, ExceptT.bindCont, ExceptT.mk, pure,
      ExceptT.pure, StateT.bind, StateT.pure, throw, throwThe, MonadExceptOf.throw,
      monadLift, MonadLift.monadLift, MonadLiftT.monadLift, ExceptT.lift,
      Functor.map, StateT.map, ExceptT.map, StateT.lift]

/-- C1: `createUrl` produces `{baseUrl}/{MonthName}-{year}/{DD}-{MM}-{year}.json` with the
English month name selected by `month-1` and zero-padded two-digit day and month; in
particular date=12, month=11, year=2024 gives `{baseUrl}/November-2024/12-11-2024.json`. -/
theorem c1_createUrl_spec :
    (∀ s : NewsFetcher, 1 ≤ s.date → s.date ≤ 31 → 1 ≤ s.month → s.month ≤ 12 →
      createUrl s = spec_createUrl s.baseUrl s.date s.month s.year)
    ∧ createUrl ⟨"https://api.news.com", 11, 2024, 12⟩ =
        "https://api.news.com/November-2024/12-11-2024.json" := by
  constructor
  · intro s h1 h2 h3 h4
    simp only [createUrl, spec_createUrl]
    rw [jsStringIndex_monthNames s.month h3 h4, padStart2_toString s.date h1 h2,
      padStart2_toString s.month h3 (by omega)]
  · decide

/-- Witness for C1 at a concrete state (the spec's second example: 15 June 2023). -/
theorem c1_createUrl_spec_witness :
    createUrl ⟨"https://api.news.com", 6, 2023, 15⟩ =
      spec_createUrl "https://api.news.com" 15 6 2023 :=
  c1_createUrl_spec.1 ⟨"https://api.news.com", 6, 2023, 15⟩
    (by norm_num) (by norm_num) (by norm_num) (by norm_num)

/-- C2: `setDate` fails exactly when a bound is violated, checks date then month then
year with short-circuiting, and the error message names the violated field. -/
theorem c2_setDate_validation (s : NewsFetcher) (d m y : Int) :
    ((∃ e, (runSetDate s d m y).1 = Except.error e) ↔
      ((d < 1 ∨ 31 < d) ∨ (m < 1 ∨ 12 < m) ∨ (y < 2000 ∨ 2100 < y)))
    ∧ ((d < 1 ∨ 31 < d) → (runSetDate s d m y).1 = Except.error "Invalid date")
    ∧ (1 ≤ d → d ≤ 31 → (m < 1 ∨ 12 < m) →
        (runSetDate s d m y).1 = Except.error "Invalid month")
    ∧ (1 ≤ d → d ≤ 31 → 1 ≤ m → m ≤ 12 → (y < 2000 ∨ 2100 < y) →
        (runSetDate s d m y).1 = Except.error "Invalid year") := by
  rw [runSetDate_eq]
  split_ifs with h1 h2 h3 <;> simp_all <;> omega

/-- Witness for C2: the spec's three failing examples each produce the right error. -/
theorem c2_setDate_validation_witness :
    (runSetDate ⟨"b", 1, 2024, 1⟩ 32 1 2024).1 = Except.error "Invalid date"
    ∧ (runSetDate ⟨"b", 1, 2024, 1⟩ 1 13 2024).1 = Except.error "Invalid month"
    ∧ (runSetDate ⟨"b", 1, 2024, 1⟩ 1 1 1999).1 = Except.error "Invalid year" :=
  ⟨(c2_setDate_validation ⟨"b", 1, 2024, 1⟩ 32 1 2024).2.1 (Or.inr (by norm_num)),
   (c2_setDate_validation ⟨"b", 1, 2024, 1⟩ 1 13 2024).2.2.1 (by norm_num) (by norm_num)
     (Or.inr (by norm_num)),
   (c2_setDate_validation ⟨"b", 1, 2024, 1⟩ 1 1 1999).2.2.2 (by norm_num) (by norm_num)
     (by norm_num) (by norm_num) (Or.inl (by norm_num))⟩

/-- C3: `setDate` is atomic: a failing call leaves all three fields (and `baseUrl`)
unchanged; a succeeding call sets all three fields to the arguments. -/
theorem c3_setDate_atomic (s : NewsFetcher) (d m y : Int) :
    (∀ e, (runSetDate s d m y).1 = Except.error e → (runSetDate s d m y).2 = s)
    ∧ ((runSetDate s d m y).1 = Except.ok () →
        (runSetDate s d m y).2.date = d ∧ (runSetDate s d m y).2.month = m ∧
        (runSetDate s d m y).2.year = y ∧ (runSetDate s d m y).2.baseUrl = s.baseUrl) := by
  rw [runSetDate_eq]
  split_ifs <;> simp_all

/-- Witness for C3: a failed call keeps the state, a successful call stores 15-6-2023. -/
theorem c3_setDate_atomic_witness :
    (runSetDate ⟨"b", 1, 2024, 1⟩ 32 1 2024).2 = ⟨"b", 1, 2024, 1⟩
    ∧ (runSetDate ⟨"b", 1, 2024, 1⟩ 15 6 2023).2.date = 15
    ∧ (runSetDate ⟨"b", 1, 2024, 1⟩ 15 6 2023).2.month = 6
    ∧ (runSetDate ⟨"b", 1, 2024, 1⟩ 15 6 2023).2.year = 2023
    ∧ (runSetDate ⟨"b", 1, 2024, 1⟩ 15 6 2023).2.baseUrl = "b" := by
  refine ⟨(c3_setDate_atomic ⟨"b", 1, 2024, 1⟩ 32 1 2024).1 "Invalid date" (by rfl), ?_⟩
  have h := (c3_setDate_atomic ⟨"b", 1, 2024, 1⟩ 15 6 2023).2 (by rfl)
  exact ⟨h.1, h.2.1, h.2.2.1, h.2.2.2⟩

/-- C10: the `monthNames[month-1]` lookup is in bounds iff `1 ≤ month ≤ 12`; out of that
range the lookup misses the array and the inserted month string is not a month name,
inside the range it always is one; a successful `setDate` guarantees the range. -/
theorem c10_monthNames_bounds :
    (∀ m : Int, (0 ≤ m - 1 ∧ (m - 1).toNat < monthNames.length) ↔ (1 ≤ m ∧ m ≤ 12))
    ∧ (∀ m : Int, ¬(1 ≤ m ∧ m ≤ 12) → jsStringIndex monthNames (m - 1) ∉ monthNames)
    ∧ (∀ m : Int, 1 ≤ m ∧ m ≤ 12 → jsStringIndex monthNames (m - 1) ∈ monthNames)
    ∧ (∀ (s : NewsFetcher) (d m y : Int), (runSetDate s d m y).1 = Except.ok () →
        1 ≤ (runSetDate s d m y).2.month ∧ (runSetDate s d m y).2.month ≤ 12) := by
  have hlen : monthNames.length = 12 := by decide
  refine ⟨fun m => ?_, fun m hm => ?_, fun m hm => ?_, fun s d m y h => ?_⟩
  · rw [hlen]; omega
  · rw [jsStringIndex, dif_neg (by rw [hlen]; omega)]
    decide
  · rw [jsStringIndex, dif_pos (show 0 ≤ m - 1 ∧ (m - 1).toNat < monthNames.length by
      rw [hlen]; omega)]
    exact List.get_mem _ _ _
  · rw [runSetDate_eq] at h ⊢
    split_ifs at h ⊢ <;> simp_all

/-- Witness for C10: month 13 misses the array, month 5 hits it, and `setDate 15 6 2023`
succeeds leaving the month in range. -/
theorem c10_monthNames_bounds_witness :
    jsStringIndex monthNames (13 - 1) ∉ monthNames
    ∧ jsStringIndex monthNames (5 - 1) ∈ monthNames
    ∧ (1 ≤ (runSetDate ⟨"b", 1, 2024, 1⟩ 15 6 2023).2.month
        ∧ (runSetDate ⟨"b", 1, 2024, 1⟩ 15 6 2023).2.month ≤ 12) :=
  ⟨c10_monthNames_bounds.2.1 13 (by omega),
   c10_monthNames_bounds.2.2.1 5 (by norm_num),
   c10_monthNames_bounds.2.2.2 ⟨"b", 1, 2024, 1⟩ 15 6 2023 (by rfl)⟩

/-- Running any query: it is one fetch followed by a pure transform of the fetched list,
and it returns the starting state unchanged. -/
lemma run_query (env : Env) (s : NewsFetcher) {α : Type} (f : List NewsItem → α) :
    ((fetchNewsData env >>= fun d => pure (f d)).run s) = (f (fetchList env s), s) := by
  cases h : env (createUrl s) <;>
    simp [fetchNewsData, fetchList, h, StateT.run, bind, StateT.bind, get, getThe,
      MonadStateOf.get, StateT.get, pure, StateT.pure]

/-! ### Sample data for witnesses -/

/-- A sample news item with the given source, categories and published instant. -/
def sampleItem (src : String) (cats : List String) (pub : Int) : NewsItem :=
  { hash := "h",
    item := { title := "t", description := "d", links := [], categories := cats,
              source := src, authors := [], image := ⟨"u"⟩, published := pub } }

/-- An environment that always fails with HTTP 500. -/
def envFail : Env := fun _ => FetchOutcome.httpError 500

/-- An environment that always returns the given items. -/
def envOk (items : List NewsItem) : Env := fun _ => FetchOutcome.ok items

/-- A sample fetcher state. -/
def s0 : NewsFetcher := ⟨"https://api.news.com", 11, 2024, 12⟩

/-- C4: when the fetch yields a non-2xx status, a network error, or a decode failure,
every public query returns an empty sequence; no error reaches the caller. -/
theorem c4_failures_empty (env : Env) (s : NewsFetcher)
    (h : (env (createUrl s)).isFailure = true) :
    ((ReturnAllSources env).run s).1 = []
    ∧ ((ReturnAllTopics env).run s).1 = []
    ∧ (∀ c, ((ReturnNewsWithATopic env c).run s).1 = [])
    ∧ (∀ src, ((ReturnNewsFromSource env src).run s).1 = [])
    ∧ (∀ k, ((SearchNewsByKeyword env k).run s).1 = [])
    ∧ (∀ a, ((ReturnNewsByAuthor env a).run s).1 = [])
    ∧ (∀ n, ((ReturnLatestNews env n).run s).1 = [])
    ∧ (∀ lo hi, ((ReturnNewsInDateRange env lo hi).run s).1 = [])
    ∧ (∀ cs, ((ReturnNewsWithMultipleCategories env cs).run s).1 = [])
    ∧ (∀ n, ((ReturnTopSourcesByArticleCount env n).run s).1 = []) := by
  have hfl : fetchList env s = [] := by
    unfold fetchList
    cases he : env (createUrl s) <;> simp_all [FetchOutcome.isFailure]
  refine ⟨?_, ?_, fun c => ?_, fun src => ?_, fun k => ?_, fun a => ?_, fun n => ?_,
    fun lo hi => ?_, fun cs => ?_, fun n => ?_⟩
  · simp only [ReturnAllSources, run_query, hfl]; rfl
  · simp only [ReturnAllTopics, run_query, hfl]; rfl
  · simp only [ReturnNewsWithATopic, run_query, hfl]; rfl
  · simp only [ReturnNewsFromSource, run_query, hfl]; rfl
  · simp only [SearchNewsByKeyword, run_query, hfl]; rfl
  · simp only [ReturnNewsByAuthor, run_query, hfl]; rfl
  · simp only [ReturnLatestNews, run_query, hfl]
    simp [List.insertionSort]
  · simp only [ReturnNewsInDateRange, run_query, hfl]; rfl
  · simp only [ReturnNewsWithMultipleCategories, run_query, hfl]; rfl
  · simp only [ReturnTopSourcesByArticleCount, run_query, hfl]
    simp [sourceCount, List.insertionSort]

/-- Witness for C4: on a constant HTTP-500 environment every query yields `[]`. -/
theorem c4_failures_empty_witness :
    ((ReturnAllSources envFail).run s0).1 = []
    ∧ ((ReturnAllTopics envFail).run s0).1 = []
    ∧ ((ReturnNewsWithATopic envFail "sports").run s0).1 = []
    ∧ ((ReturnNewsFromSource envFail "bbc").run s0).1 = []
    ∧ ((SearchNewsByKeyword envFail "ai").run s0).1 = []
    ∧ ((ReturnNewsByAuthor envFail "doe").run s0).1 = []
    ∧ ((ReturnLatestNews envFail 10).run s0).1 = []
    ∧ ((ReturnNewsInDateRange envFail 0 1).run s0).1 = []
    ∧ ((ReturnNewsWithMultipleCategories envFail ["a", "b"]).run s0).1 = []
    ∧ ((ReturnTopSourcesByArticleCount envFail 5).run s0).1 = [] := by
  have h := c4_failures_empty envFail s0 (by rfl)
  exact ⟨h.1, h.2.1, h.2.2.1 "sports", h.2.2.2.1 "bbc", h.2.2.2.2.1 "ai",
    h.2.2.2.2.2.1 "doe", h.2.2.2.2.2.2.1 10, h.2.2.2.2.2.2.2.1 0 1,
    h.2.2.2.2.2.2.2.2.1 ["a", "b"], h.2.2.2.2.2.2.2.2.2 5⟩

/-- C6: `ReturnNewsWithATopic` keeps exactly the items with some category equal (after
lowercasing both sides) to the argument, so lowercase-equal arguments give identical
results. -/
theorem c6_topic_filter (env : Env) (s : NewsFetcher) :
    (∀ (category : String) (x : NewsItem),
      x ∈ ((ReturnNewsWithATopic env category).run s).1 ↔
        x ∈ fetchList env s ∧ ∃ c ∈ x.item.categories, jsToLower c = jsToLower category)
    ∧ (∀ s1 s2 : String, jsToLower s1 = jsToLower s2 →
        ((ReturnNewsWithATopic env s1).run s).1 = ((ReturnNewsWithATopic env s2).run s).1) := by
  constructor
  · intro category x
    simp only [ReturnNewsWithATopic, run_query]
    simp [List.mem_filter]
  · intro s1 s2 h
    simp only [ReturnNewsWithATopic, run_query, h]

/-- Witness for C6: `"Sports"` and `"sports"` give identical result lists, and the single
sample item is kept for the capitalised query. -/
theorem c6_topic_filter_witness :
    ((ReturnNewsWithATopic (envOk [sampleItem "s" ["Sports"] 0]) "Sports").run s0).1 =
      ((ReturnNewsWithATopic (envOk [sampleItem "s" ["Sports"] 0]) "sports").run s0).1
    ∧ sampleItem "s" ["Sports"] 0 ∈
        ((ReturnNewsWithATopic (envOk [sampleItem "s" ["Sports"] 0]) "sports").run s0).1 :=
  ⟨(c6_topic_filter (envOk [sampleItem "s" ["Sports"] 0]) s0).2 "Sports" "sports" (by decide),
   ((c6_topic_filter (envOk [sampleItem "s" ["Sports"] 0]) s0).1 "sports"
      (sampleItem "s" ["Sports"] 0)).mpr
     ⟨by simp [fetchList, envOk, createUrl], ⟨"Sports", by simp [sampleItem], by decide⟩⟩⟩

/-- C8: no query mutates the fetcher state: after any of the ten public query
operations the state (baseUrl, date, month, year) is the starting state. -/
theorem c8_queries_no_mutation (env : Env) (s : NewsFetcher) :
    ((ReturnAllSources env).run s).2 = s
    ∧ ((ReturnAllTopics env).run s).2 = s
    ∧ (∀ c, ((ReturnNewsWithATopic env c).run s).2 = s)
    ∧ (∀ src, ((ReturnNewsFromSource env src).run s).2 = s)
    ∧ (∀ k, ((SearchNewsByKeyword env k).run s).2 = s)
    ∧ (∀ a, ((ReturnNewsByAuthor env a).run s).2 = s)
    ∧ (∀ n, ((ReturnLatestNews env n).run s).2 = s)
    ∧ (∀ lo hi, ((ReturnNewsInDateRange env lo hi).run s).2 = s)
    ∧ (∀ cs, ((ReturnNewsWithMultipleCategories env cs).run s).2 = s)
    ∧ (∀ n, ((ReturnTopSourcesByArticleCount env n).run s).2 = s) := by
  refine ⟨?_, ?_, fun c => ?_, fun src => ?_, fun k => ?_, fun a => ?_, fun n => ?_,
    fun lo hi => ?_, fun cs => ?_, fun n => ?_⟩
  · simp only [ReturnAllSources, run_query]
  · simp only [ReturnAllTopics, run_query]
  · simp only [ReturnNewsWithATopic, run_query]
  · simp only [ReturnNewsFromSource, run_query]
  · simp only [SearchNewsByKeyword, run_query]
  · simp only [ReturnNewsByAuthor, run_query]
  · simp only [ReturnLatestNews, run_query]
  · simp only [ReturnNewsInDateRange, run_query]
  · simp only [ReturnNewsWithMultipleCategories, run_query]
  · simp only [ReturnTopSourcesByArticleCount, run_query]

/-! ### Association-list machinery for the frequency maps -/

/-- `map.get(k) || 0` on an association list. -/
def lookupN : List (String × Nat) → String → Nat
  | [], _ => 0
  | (a, n) :: rest, k => if a = k then n else lookupN rest k

/-- All category occurrences of the fetched items, in fetched order. -/
def allCats (data : List NewsItem) : List String :=
  (data.map fun it => it.item.categories).flatten

/-- Number of occurrences of category `c` across all items. -/
def catCount (data : List NewsItem) (c : String) : Nat :=
  (allCats data).count c

/-- Number of items whose `source` equals `c` exactly. -/
def srcCount (data : List NewsItem) (c : String) : Nat :=
  (data.map fun it => it.item.source).count c

lemma bump_map_fst (l : List (String × Nat)) (k : String) :
    (bump l k).map Prod.fst =
      if k ∈ l.map Prod.fst then l.map Prod.fst else l.map Prod.fst ++ [k] := by
  induction l with
  | nil => simp [bump]
  | cons p rest ih =>
    obtain ⟨a, n⟩ := p
    by_cases h : a = k
    · subst h
      simp [bump]
    · simp only [bump, if_neg h, List.map_cons, ih]
      by_cases h2 : k ∈ rest.map Prod.fst <;>
        simp [h2, List.mem_cons, Ne.symm h]

lemma lookupN_bump (l : List (String × Nat)) (k k' : String) :
    lookupN (bump l k) k' = lookupN l k' + if k = k' then 1 else 0 := by
  induction l with
  | nil => simp [bump, lookupN]
  | cons p rest ih =>
    obtain ⟨a, n⟩ := p
    by_cases h : a = k
    · subst h
      by_cases h2 : a = k' <;> simp [bump, lookupN, h2]
    · by_cases h2 : a = k'
      · subst h2
        simp [bump, if_neg h, lookupN, Ne.symm h]
      · simp [bump, if_neg h, lookupN, h2, ih]

lemma foldl_bump_lookupN (ks : List String) (acc : List (String × Nat)) (k : String) :
    lookupN (ks.foldl bump acc) k = lookupN acc k + ks.count k := by
  induction ks generalizing acc with
  | nil => simp
  | cons c ks ih =>
    rw [List.foldl_cons, ih, lookupN_bump, List.count_cons]
    by_cases h : c = k <;> simp [h] <;> omega

lemma foldl_bump_map_fst (ks : List String) (acc : List (String × Nat)) :
    (ks.foldl bump acc).map Prod.fst =
      ks.foldl (fun a c => if c ∈ a then a else a ++ [c]) (acc.map Prod.fst) := by
  induction ks generalizing acc with
  | nil => rfl
  | cons c ks ih =>
    rw [List.foldl_cons, List.foldl_cons, ih, bump_map_fst]

lemma mem_foldl_dedup (l : List String) (acc : List String) (c : String) :
    c ∈ l.foldl (fun a x => if x ∈ a then a else a ++ [x]) acc ↔ c ∈ acc ∨ c ∈ l := by
  induction l generalizing acc with
  | nil => simp
  | cons x l ih =>
    rw [List.foldl_cons]
    by_cases h : x ∈ acc
    · rw [if_pos h, ih]
      constructor
      · rintro (hc | hc)
        · exact Or.inl hc
        · exact Or.inr (List.mem_cons_of_mem _ hc)
      · rintro (hc | hc)
        · exact Or.inl hc
        · rcases List.mem_cons.mp hc with rfl | hc
          · exact Or.inl h
          · exact Or.inr hc
    · rw [if_neg h, ih]
      simp only [List.mem_append, List.mem_cons, List.mem_singleton]
      tauto

lemma nodup_foldl_dedup (l : List String) (acc : List String) (h : acc.Nodup) :
    (l.foldl (fun a x => if x ∈ a then a else a ++ [x]) acc).Nodup := by
  induction l generalizing acc with
  | nil => exact h
  | cons x l ih =>
    rw [List.foldl_cons]
    by_cases hx : x ∈ acc
    · rw [if_pos hx]; exact ih _ h
    · rw [if_neg hx]
      exact ih _ (by simp [List.nodup_append, h, hx])

lemma firstDedup_mem (l : List String) (c : String) : c ∈ firstDedup l ↔ c ∈ l := by
  unfold firstDedup
  rw [mem_foldl_dedup]
  simp

lemma firstDedup_nodup (l : List String) : (firstDedup l).Nodup :=
  nodup_foldl_dedup l [] (by simp)

lemma lookupN_of_mem {l : List (String × Nat)} (hnd : (l.map Prod.fst).Nodup)
    {p : String × Nat} (hp : p ∈ l) : p.2 = lookupN l p.1 := by
  induction l with
  | nil => cases hp
  | cons q rest ih =>
    rw [List.map_cons, List.nodup_cons] at hnd
    rcases List.mem_cons.mp hp with rfl | hp'
    · simp [lookupN]
    · have hq : q.1 ≠ p.1 := by
        intro he
        exact hnd.1 (he ▸ List.mem_map_of_mem Prod.fst hp')
      rw [lookupN, if_neg hq]
      exact ih hnd.2 hp'

lemma categoryFrequency_eq (data : List NewsItem) :
    categoryFrequency data = (allCats data).foldl bump [] := by
  unfold categoryFrequency allCats
  rw [List.foldl_flatten, List.foldl_map]

lemma sourceCount_eq (data : List NewsItem) :
    sourceCount data = (data.map fun it => it.item.source).foldl bump [] := by
  unfold sourceCount
  rw [List.foldl_map]

lemma categoryFrequency_keys (data : List NewsItem) :
    (categoryFrequency data).map Prod.fst = firstDedup (allCats data) := by
  rw [categoryFrequency_eq, foldl_bump_map_fst]
  rfl

lemma sourceCount_keys (data : List NewsItem) :
    (sourceCount data).map Prod.fst =
      firstDedup (data.map fun it => it.item.source) := by
  rw [sourceCount_eq, foldl_bump_map_fst]
  rfl

lemma categoryFrequency_snd {data : List NewsItem} {p : String × Nat}
    (hp : p ∈ categoryFrequency data) : p.2 = catCount data p.1 := by
  have hnd : ((categoryFrequency data).map Prod.fst).Nodup := by
    rw [categoryFrequency_keys]; exact firstDedup_nodup _
  rw [lookupN_of_mem hnd hp, categoryFrequency_eq, foldl_bump_lookupN]
  simp [lookupN, catCount]

lemma sourceCount_snd {data : List NewsItem} {p : String × Nat}
    (hp : p ∈ sourceCount data) : p.2 = srcCount data p.1 := by
  have hnd : ((sourceCount data).map Prod.fst).Nodup := by
    rw [sourceCount_keys]; exact firstDedup_nodup _
  rw [lookupN_of_mem hnd hp, sourceCount_eq, foldl_bump_lookupN]
  simp [lookupN, srcCount]

lemma pair_sublist_lift {a b : String} {l : List (String × Nat)}
    (h : [a, b].Sublist (l.map Prod.fst)) :
    ∃ p q, [p, q].Sublist l ∧ p.1 = a ∧ q.1 = b := by
  obtain ⟨l', hl', he⟩ := List.sublist_map_iff.mp h
  have hlen : l'.length = 2 := by
    have := congrArg List.length he
    simpa using this.symm
  match l', hlen, hl', he with
  | [p, q], _, hl', he =>
    simp only [List.map_cons, List.map_nil, List.cons.injEq, and_true] at he
    exact ⟨p, q, hl', he.1.symm, he.2.symm⟩

/-- C5: `ReturnAllTopics` returns the distinct categories (exactly those occurring in the
fetched items), ordered by non-increasing occurrence count, and categories with equal
counts keep the order in which they were first encountered (the order of
`firstDedup (allCats data)`). -/
theorem c5_topics_by_frequency (env : Env) (s : NewsFetcher) :
    (((ReturnAllTopics env).run s).1).Nodup
    ∧ (∀ c, c ∈ ((ReturnAllTopics env).run s).1 ↔ 0 < catCount (fetchList env s) c)
    ∧ List.Pairwise
        (fun a b => catCount (fetchList env s) b ≤ catCount (fetchList env s) a)
        ((ReturnAllTopics env).run s).1
    ∧ (∀ a b, catCount (fetchList env s) a = catCount (fetchList env s) b →
        [a, b].Sublist (firstDedup (allCats (fetchList env s))) →
        [a, b].Sublist ((ReturnAllTopics env).run s).1) := by
  simp only [ReturnAllTopics, run_query]
  have hperm :
      ((((categoryFrequency (fetchList env s)).insertionSort byCountDesc)).map
          Prod.fst).Perm
        ((categoryFrequency (fetchList env s)).map Prod.fst) :=
    (List.perm_insertionSort byCountDesc _).map Prod.fst
  refine ⟨?_, fun c => ?_, ?_, fun a b hcount hsub => ?_⟩
  · exact hperm.nodup_iff.mpr
      (categoryFrequency_keys (fetchList env s) ▸ firstDedup_nodup _)
  · rw [hperm.mem_iff, categoryFrequency_keys, firstDedup_mem, catCount]
    exact List.count_pos_iff.symm
  · rw [List.pairwise_map]
    refine (List.sorted_insertionSort byCountDesc _).imp_of_mem ?_
    intro p q hp hq hr
    have hp' := (List.mem_insertionSort byCountDesc).mp hp
    have hq' := (List.mem_insertionSort byCountDesc).mp hq
    rw [← categoryFrequency_snd hp', ← categoryFrequency_snd hq']
    exact hr
  · rw [← categoryFrequency_keys] at hsub
    obtain ⟨p, q, hpq, hpa, hqb⟩ := pair_sublist_lift hsub
    have hp' : p ∈ categoryFrequency (fetchList env s) := hpq.subset (by simp)
    have hq' : q ∈ categoryFrequency (fetchList env s) := hpq.subset (by simp)
    have hr : byCountDesc p q := by
      unfold byCountDesc
      rw [categoryFrequency_snd hp', categoryFrequency_snd hq', hpa, hqb, hcount]
    have hsorted := List.Sublist.map Prod.fst (List.pair_sublist_insertionSort hr hpq)
    simpa [hpa, hqb] using hsorted

/-- Witness for C5: items with categories `x,y` and `x,z`: `x` (count 2) precedes, the
tied categories `y`, `z` (count 1 each) stay in first-encountered order. -/
theorem c5_topics_by_frequency_witness :
    "y" ∈ ((ReturnAllTopics (envOk [sampleItem "a" ["x", "y"] 0,
        sampleItem "b" ["x", "z"] 0])).run s0).1
    ∧ ["y", "z"].Sublist ((ReturnAllTopics (envOk [sampleItem "a" ["x", "y"] 0,
        sampleItem "b" ["x", "z"] 0])).run s0).1 :=
  ⟨((c5_topics_by_frequency (envOk [sampleItem "a" ["x", "y"] 0,
        sampleItem "b" ["x", "z"] 0]) s0).2.1 "y").mpr (by decide),
   (c5_topics_by_frequency (envOk [sampleItem "a" ["x", "y"] 0,
        sampleItem "b" ["x", "z"] 0]) s0).2.2.2 "y" "z" (by decide) (by decide)⟩

/-- C7: `ReturnLatestNews(limit)` is the `limit`-prefix of the fetched items sorted by
published instant, descending: output is sorted descending, has length
`min limit n`, is a sub-permutation of the data, and is maximal: the remaining items
(some `rest` completing it to a permutation of the data) are all no newer than every
returned item; on three items with strictly increasing timestamps `ReturnLatestNews 2`
returns the top two, newest first. -/
theorem c7_latest_news (env : Env) (s : NewsFetcher) :
    (∀ n, List.Pairwise
        (fun a b => b.item.published ≤ a.item.published)
        (((ReturnLatestNews env n).run s).1))
    ∧ (∀ n, (((ReturnLatestNews env n).run s).1).length = min n (fetchList env s).length)
    ∧ (∀ n, (((ReturnLatestNews env n).run s).1).Subperm (fetchList env s))
    ∧ (∀ n, ∃ rest : List NewsItem,
        ((((ReturnLatestNews env n).run s).1) ++ rest).Perm (fetchList env s)
        ∧ ∀ a ∈ ((ReturnLatestNews env n).run s).1, ∀ b ∈ rest,
            b.item.published ≤ a.item.published)
    ∧ (∀ i1 i2 i3 : NewsItem, i1.item.published < i2.item.published →
        i2.item.published < i3.item.published →
        ∀ s' : NewsFetcher,
          ((ReturnLatestNews (fun _ => FetchOutcome.ok [i1, i2, i3]) 2).run s').1 =
            [i3, i2]) := by
  refine ⟨fun n => ?_, fun n => ?_, fun n => ?_, fun n => ?_,
    fun i1 i2 i3 h12 h23 s' => ?_⟩
  · simp only [ReturnLatestNews, run_query]
    exact (List.Pairwise.sublist (List.take_sublist _ _)
      (List.sorted_insertionSort byPublishedDesc _)).imp (fun h => h)
  · simp only [ReturnLatestNews, run_query]
    rw [List.length_take, List.length_insertionSort]
  · simp only [ReturnLatestNews, run_query]
    exact ((List.take_sublist _ _).subperm).trans
      (List.perm_insertionSort byPublishedDesc _).subperm
  · simp only [ReturnLatestNews, run_query]
    refine ⟨(List.insertionSort byPublishedDesc (fetchList env s)).drop n, ?_, ?_⟩
    · rw [List.take_append_drop]
      exact List.perm_insertionSort byPublishedDesc _
    · have hs := List.sorted_insertionSort byPublishedDesc (fetchList env s)
      rw [← List.take_append_drop n
        (List.insertionSort byPublishedDesc (fetchList env s))] at hs
      have hsp := List.pairwise_append.mp hs
      exact fun a ha b hb => hsp.2.2 a ha b hb
  · have e21 : ¬ byPublishedDesc i1 i2 := by
      simp only [byPublishedDesc, not_le]; omega
    have e31 : ¬ byPublishedDesc i1 i3 := by
      simp only [byPublishedDesc, not_le]; omega
    have e32 : ¬ byPublishedDesc i2 i3 := by
      simp only [byPublishedDesc, not_le]; omega
    simp only [ReturnLatestNews, run_query]
    simp [fetchList, List.insertionSort, List.orderedInsert, e21, e31, e32]

/-- Witness for C7: three sample items with timestamps 1 < 2 < 3. -/
theorem c7_latest_news_witness :
    ((ReturnLatestNews (fun _ => FetchOutcome.ok
        [sampleItem "a" [] 1, sampleItem "b" [] 2, sampleItem "c" [] 3]) 2).run s0).1 =
      [sampleItem "c" [] 3, sampleItem "b" [] 2] :=
  (c7_latest_news envFail s0).2.2.2.2 (sampleItem "a" [] 1) (sampleItem "b" [] 2)
    (sampleItem "c" [] 3) (by decide) (by decide) s0

/-- C9: source grouping is case-sensitive: `ReturnAllSources` lists exactly the values
occurring as `source` (no lowercasing, duplicates collapsed), and
`ReturnTopSourcesByArticleCount` pairs each listed source with the number of items whose
`source` is exactly that string; with a large enough limit its sources are exactly
`ReturnAllSources`. -/
theorem c9_sources_case_sensitive (env : Env) (s : NewsFetcher) :
    (∀ c, c ∈ ((ReturnAllSources env).run s).1 ↔
        ∃ it ∈ fetchList env s, it.item.source = c)
    ∧ (((ReturnAllSources env).run s).1).Nodup
    ∧ (∀ limit p, p ∈ ((ReturnTopSourcesByArticleCount env limit).run s).1 →
        p.2 = srcCount (fetchList env s) p.1)
    ∧ (∀ limit,
        (firstDedup ((fetchList env s).map fun it => it.item.source)).length ≤ limit →
        ((((ReturnTopSourcesByArticleCount env limit).run s).1).map Prod.fst).Perm
          ((ReturnAllSources env).run s).1) := by
  simp only [ReturnAllSources, ReturnTopSourcesByArticleCount, run_query]
  refine ⟨fun c => ?_, ?_, fun limit p hp => ?_, fun limit hlim => ?_⟩
  · rw [firstDedup_mem]
    simp
  · exact firstDedup_nodup _
  · exact sourceCount_snd
      ((List.mem_insertionSort byCountDesc).mp (List.mem_of_mem_take hp))
  · have hlen :
        ((sourceCount (fetchList env s)).insertionSort byCountDesc).length ≤ limit := by
      rw [List.length_insertionSort]
      have hkeys := congrArg List.length (sourceCount_keys (fetchList env s))
      rw [List.length_map] at hkeys
      omega
    rw [List.take_of_length_le hlen]
    have hperm :=
      (List.perm_insertionSort byCountDesc (sourceCount (fetchList env s))).map Prod.fst
    rwa [sourceCount_keys] at hperm

/-- Witness for C9: two items whose sources differ only in case are listed and counted
separately. -/
theorem c9_sources_case_sensitive_witness :
    "News" ∈ ((ReturnAllSources (envOk [sampleItem "News" [] 0,
        sampleItem "news" [] 0])).run s0).1
    ∧ "news" ∈ ((ReturnAllSources (envOk [sampleItem "News" [] 0,
        sampleItem "news" [] 0])).run s0).1
    ∧ ((((ReturnTopSourcesByArticleCount (envOk [sampleItem "News" [] 0,
        sampleItem "news" [] 0]) 5).run s0).1).map Prod.fst).Perm
        (((ReturnAllSources (envOk [sampleItem "News" [] 0,
          sampleItem "news" [] 0])).run s0).1) :=
  ⟨((c9_sources_case_sensitive (envOk [sampleItem "News" [] 0,
        sampleItem "news" [] 0]) s0).1 "News").mpr
      ⟨sampleItem "News" [] 0, by decide, rfl⟩,
   ((c9_sources_case_sensitive (envOk [sampleItem "News" [] 0,
        sampleItem "news" [] 0]) s0).1 "news").mpr
      ⟨sampleItem "news" [] 0, by decide, rfl⟩,
   (c9_sources_case_sensitive (envOk [sampleItem "News" [] 0,
        sampleItem "news" [] 0]) s0).2.2.2 5 (by decide)⟩
